import Mathlib

/-!
Shallow embedding of the PocketPlans plan-generation route
(`src/Projects/nowwhat/app/api/plan/route.ts`).

Conventions used throughout this development:

* Coordinates, ratings and distances are `ℚ`; epoch timestamps (ms) and
  minute counts are `ℤ`; list positions are `ℕ`.
* The source computes `haversineKm` with floating-point trigonometry.  The
  pipeline here is parametrised over an arbitrary distance function
  `dist : Coord → Coord → ℚ`, so every theorem below holds for the haversine
  distance in particular; no theorem depends on metric properties.
* Randomised pieces of the source (`Math.random` jitter inside
  `scoreOption`, the Boltzmann weights of `weightedPick`) are parametrised:
  the scorer is an arbitrary function `scoreFn : PlanOption → ℚ` and the
  picker an arbitrary `pick : List Scored → Option Scored`, constrained
  only by the hypothesis that a successful pick returns a member of the
  list it was offered (true of `weightedPick`).
* Network and Redis effects are replaced by explicit inputs: `lanes` gives
  the (deduplicated) result of `collectCandidatesMultiLane` for each vibe,
  `details` gives the result of `fetchPlaceDetailsById` per place id.  The
  cache layer itself is modelled separately with `Except` to capture thrown
  exceptions.
-/

namespace PocketPlans

/-- Character-list matcher: `listIsPre pat s` holds when `pat` is an initial
segment of `s`. -/
def listIsPre : List Char → List Char → Bool
  | [], _ => true
  | _ :: _, [] => false
  | a :: as, b :: bs => a == b && listIsPre as bs

/-- Occurrence test used to model JavaScript `String.prototype.includes`:
`occursIn pat s` holds when `pat` appears contiguously inside `s`. -/
def occursIn (pat : List Char) : List Char → Bool
  | [] => listIsPre pat []
  | c :: rest => listIsPre pat (c :: rest) || occursIn pat rest

/-- Model of JavaScript `s.includes(pat)`. -/
def strContains (s pat : String) : Bool := occursIn pat.data s.data

/-- Model of `s.toLowerCase()` (character-wise, as the strings involved are
ASCII). -/
def lowerStr (s : String) : String := String.mk (s.data.map Char.toLower)

/-- Model of `s.trim()`: strips whitespace from both ends. -/
def trimStr (s : String) : String :=
  String.mk (((s.data.dropWhile Char.isWhitespace).reverse.dropWhile Char.isWhitespace).reverse)

/-- Latitude/longitude pair (`{ lat, lng }` in the source). -/
structure Coord where
  lat : ℚ
  lng : ℚ
deriving DecidableEq, Repr

/-- Derived weather booleans computed once per request by
`getWeatherFlags`. -/
structure WeatherFlags where
  precip : Bool
  cold : Bool
  veryCold : Bool
  windy : Bool
  veryWindy : Bool
  minTemp : ℚ
deriving DecidableEq, Repr

/-- `MIN_REMAINING_MIN = 75` (shortlist threshold). -/
def MIN_REMAINING_MIN : Int := 75

/-- `RELAXED_REMAINING_MIN = 45` (swap pool threshold when close known). -/
def RELAXED_REMAINING_MIN : Int := 45

/-- `MAX_DIST_KM_SHORTLIST = 10`. -/
def MAX_DIST_KM_SHORTLIST : ℚ := 10

/-- `MAX_DIST_KM_SWAP = 14`. -/
def MAX_DIST_KM_SWAP : ℚ := 14

/-- `DETAILS_CAP_TOTAL = 55` (maximum details calls per request). -/
def DETAILS_CAP_TOTAL : Nat := 55

/-- `TARGET_SWAP_POOL = 26`. -/
def TARGET_SWAP_POOL : Nat := 26

/-- `MAX_POOL_RETURN = 60`. -/
def MAX_POOL_RETURN : Nat := 60

/-- The `ALLOWED_BY_VIBE` table, as a partial map from vibe name to the
ordered list of allowed internal categories. -/
def ALLOWED_BY_VIBE (v : String) : Option (List String) :=
  if v = "Cozy" then some ["Cafe", "Dessert", "Bookstore", "Wine Bar", "Tea House"]
  else if v = "Outdoors" then some ["Park", "Scenic Walk", "Waterfront", "Outdoor Market", "Activity"]
  else if v = "Productive" then some ["Library", "Work Cafe", "Quiet Workspace", "Study Spot"]
  else if v = "Social" then some ["Bar", "Group Dining", "Activity Venue", "Event Space"]
  else if v = "Luxury" then some ["Fine Dining", "Rooftop Bar", "Specialty Dessert", "Premium Spot"]
  else none

/-- JavaScript `Math.min` on two rationals. -/
def jsMin (a b : ℚ) : ℚ := if a ≤ b then a else b

/-- JavaScript `Math.max` on two rationals. -/
def jsMax (a b : ℚ) : ℚ := if a ≤ b then b else a

/-- `clamp(n, min, max) = Math.max(min, Math.min(max, n))`. -/
def clamp (n mn mx : ℚ) : ℚ := jsMax mn (jsMin mx n)

/-- `isOutdoorishCategory`: substring test over the lowercased category. -/
def isOutdoorishCategory (category : String) : Bool :=
  let cat := lowerStr category
  strContains cat "park" || strContains cat "walk" || strContains cat "water" ||
    strContains cat "outdoor" || strContains cat "waterfront" || strContains cat "scenic" ||
    strContains cat "market" || strContains cat "activity"

/-- The `ALLOWED_BY_VIBE[vibe]?.[0] ?? dflt` fallback used inside the
category mapper. -/
def firstAllowed (vibe : String) (dflt : String) : String :=
  ((ALLOWED_BY_VIBE vibe).bind List.head?).getD dflt

/-- `googleTypeToInternalCategory`: maps provider type tags to exactly one
internal category.  `types.contains t` models `new Set(types).has(t)` and
`allowed.contains c` models membership in `new Set(ALLOWED_BY_VIBE[vibe] ??
ALLOWED_BY_VIBE["Social"])`.  The two provider-tag groups that do not return
unconditionally in the source (tourist attractions, museums) fall through to
the next test exactly when none of their target categories is allowed, which
the guarded conditions below reproduce. -/
def googleTypeToInternalCategory (types : List String) (vibe : String) : String :=
  let allowed := (ALLOWED_BY_VIBE vibe).getD ((ALLOWED_BY_VIBE "Social").getD [])
  if types.contains "bar" || types.contains "night_club" then
    (if allowed.contains "Bar" then "Bar" else firstAllowed vibe "Venue")
  else if types.contains "bowling_alley" || types.contains "movie_theater" ||
      types.contains "amusement_park" || types.contains "casino" then
    (if allowed.contains "Activity Venue" then "Activity Venue" else firstAllowed vibe "Activity")
  else if types.contains "restaurant" then
    (if allowed.contains "Group Dining" then "Group Dining"
     else if allowed.contains "Fine Dining" then "Fine Dining"
     else if allowed.contains "Work Cafe" then "Work Cafe"
     else if allowed.contains "Study Spot" then "Study Spot"
     else if allowed.contains "Cafe" then "Cafe"
     else firstAllowed vibe "Restaurant")
  else if types.contains "cafe" then
    (if allowed.contains "Work Cafe" then "Work Cafe"
     else if allowed.contains "Cafe" then "Cafe"
     else firstAllowed vibe "Cafe")
  else if types.contains "bakery" then
    (if allowed.contains "Dessert" then "Dessert" else firstAllowed vibe "Dessert")
  else if types.contains "library" then
    (if allowed.contains "Library" then "Library" else firstAllowed vibe "Study Spot")
  else if types.contains "book_store" then
    (if allowed.contains "Bookstore" then "Bookstore" else firstAllowed vibe "Bookstore")
  else if types.contains "park" then
    (if allowed.contains "Park" then "Park" else firstAllowed vibe "Park")
  else if (types.contains "tourist_attraction" || types.contains "point_of_interest") &&
      (allowed.contains "Scenic Walk" || allowed.contains "Waterfront" ||
        allowed.contains "Activity") then
    (if allowed.contains "Scenic Walk" then "Scenic Walk"
     else if allowed.contains "Waterfront" then "Waterfront"
     else "Activity")
  else if (types.contains "museum" || types.contains "art_gallery" ||
      types.contains "stadium" || types.contains "theater") &&
      (allowed.contains "Event Space" || allowed.contains "Activity Venue" ||
        allowed.contains "Activity") then
    (if allowed.contains "Event Space" then "Event Space"
     else if allowed.contains "Activity Venue" then "Activity Venue"
     else "Activity")
  else firstAllowed vibe "Cafe"

/-- AM/PM recogniser for the `(AM|PM)` group (case-insensitive); returns
`some true` for PM. -/
def parseAmPm (a b : Char) : Option Bool :=
  if b.toLower = 'm' then
    if a.toLower = 'a' then some false
    else if a.toLower = 'p' then some true
    else none
  else none

/-- Hour/minute → minutes-since-midnight conversion of
`parseClosingTimeToMinutes` (12-hour clock with the source's AM/PM
adjustments, no range checks beyond the digit pattern). -/
def toClockMinutes (hour mins : Nat) (pm : Bool) : Int :=
  let h : Nat :=
    if pm && hour ≠ 12 then hour + 12
    else if (!pm) && hour = 12 then 0
    else hour
  ((h * 60 + mins : Nat) : Int)

/-- `parseClosingTimeToMinutes`: matches the regex
`^(\d{1,2}):(\d{2})\s(AM|PM)$` (case-insensitive) and converts to minutes
since midnight; `none` models the `null` returns. -/
def parseClosingTimeToMinutes (closingTime : Option String) : Option Int :=
  match closingTime with
  | none => none
  | some s =>
    match s.toList with
    | [h1, ':', m1, m2, w, a, b] =>
      if h1.isDigit && m1.isDigit && m2.isDigit && w.isWhitespace then
        (parseAmPm a b).map (fun pm =>
          toClockMinutes (h1.toNat - 48) ((m1.toNat - 48) * 10 + (m2.toNat - 48)) pm)
      else none
    | [h1, h2, ':', m1, m2, w, a, b] =>
      if h1.isDigit && h2.isDigit && m1.isDigit && m2.isDigit && w.isWhitespace then
        (parseAmPm a b).map (fun pm =>
          toClockMinutes ((h1.toNat - 48) * 10 + (h2.toNat - 48))
            ((m1.toNat - 48) * 10 + (m2.toNat - 48)) pm)
      else none
    | _ => none

/-- `minutesUntilClose`: the `closeTs` branch uses `Date.now()` (modelled by
`nowMs`), the label branch uses the city-local wall clock derived from
`nowMs + tzOffsetSec * 1000` (what `cityLocalNow`/`minutesSinceMidnight`
compute for nonnegative instants). -/
def minutesUntilClose (nowMs tzOffsetSec : Int) (closingTime : Option String)
    (closeTs : Option Int) : Option Int :=
  match closeTs with
  | some ts =>
    let diff := ts - nowMs
    some (if 0 < diff then diff / 60000 else 0)
  | none =>
    match parseClosingTimeToMinutes closingTime with
    | none => none
    | some closeMin =>
      let nowMin := ((nowMs + tzOffsetSec * 1000) / 60000) % 1440
      some (if nowMin ≤ closeMin then closeMin - nowMin else 24 * 60 - nowMin + closeMin)

/-- The request-scoped `Option` record built by the route (renamed
`PlanOption` to avoid the Lean `Option` type).  The ephemeral `_score` is
kept outside this structure, see `Scored`.  `rating` is kept nullable
because `scoreOption` guards it with `?? 4.2`. -/
structure PlanOption where
  id : String
  name : String
  category : String
  rating : Option ℚ
  etaMin : ℚ
  openStatus : String
  lat : ℚ
  lng : ℚ
  address : String
  closingTime : Option String
  placeId : Option String
  priceLevel : Option Int
  userRatingsTotal : Option ℚ
  closeTs : Option Int
deriving DecidableEq, Repr

/-- A scored option: the source spreads `_score` onto the object
(`{ ...o, _score }`); we carry it as a pair. -/
abbrev Scored := PlanOption × ℚ

/-- Arguments record of `hardReject`.  `nowMs`/`tzOffsetSec` replace the
`cityNow : Date` argument (see `minutesUntilClose`). -/
structure RejectArgs where
  minRemaining : Int
  allowUnknownHours : Bool
  maxDistKm : ℚ
  allowedSet : List String
  center : Coord
  nowMs : Int
  tzOffsetSec : Int
  cityHour : Int
  flags : WeatherFlags

/-- `hardReject`: the deterministic feasibility filter.  Returns
`some reason` to reject, `none` to keep.  The check order is exactly the
source order: allowed category, provider "closed" text, distance, unknown
hours (accepting immediately when the profile allows them), closing-soon,
weather guard. -/
def hardReject (dist : Coord → Coord → ℚ) (opt : PlanOption) (args : RejectArgs) :
    Option String :=
  if !(args.allowedSet.contains opt.category) then some "vibe_mismatch"
  else
    let openText := lowerStr opt.openStatus
    if strContains openText "closed" then some "closed"
    else
      let distKm := dist args.center ⟨opt.lat, opt.lng⟩
      if args.maxDistKm < distKm then some "too_far"
      else
        match minutesUntilClose args.nowMs args.tzOffsetSec opt.closingTime opt.closeTs with
        | none => if args.allowUnknownHours then none else some "unknown_hours"
        | some minsLeft =>
          if minsLeft < args.minRemaining then some "closing_soon"
          else if isOutdoorishCategory opt.category &&
              (args.flags.precip || args.flags.veryCold || args.flags.veryWindy) then
            some "weather_block"
          else if isOutdoorishCategory opt.category && args.flags.cold &&
              (18 : Int) ≤ args.cityHour then
            some "weather_block"
          else none

/-- The `payload` record assembled by `fetchPlaceDetailsById` (provider
details after parsing; `openNow = none` models the `null` "unknown"
state).  `closingTime`/`closeTs` are the values computed by
`getActivePeriodClose` when `open_now === true` and a schedule parses,
`none` otherwise. -/
structure DetailRecord where
  placeId : String
  name : String
  rating : Option ℚ
  userRatingsTotal : Option ℚ
  priceLevel : Option Int
  types : List String
  openNow : Option Bool
  businessStatus : Option String
  closingTime : Option String
  closeTs : Option Int
  formattedAddress : Option String
  lat : Option ℚ
  lng : Option ℚ
  photoUrls : List String
deriving DecidableEq, Repr

/-- A retrieval candidate (`GoogleCandidate`). -/
structure GoogleCandidate where
  placeId : String
  name : String
  lat : ℚ
  lng : ℚ
deriving DecidableEq, Repr

/-- Per-record body of the `for (const d of detailsList)` loop in
`buildOptionsFromCandidates`: drops permanently-closed and explicitly-closed
records, maps the category, enforces the allowed set, and assembles the
`Option`. -/
def buildOptionFromDetail (vibe : String) (allowedSet : List String) (center : Coord)
    (d : DetailRecord) : Option PlanOption :=
  if d.businessStatus = some "CLOSED_PERMANENTLY" then none
  else if d.openNow = some false then none
  else
    let category := googleTypeToInternalCategory d.types vibe
    if !(allowedSet.contains category) then none
    else
      let lat := d.lat.getD center.lat
      let lng := d.lng.getD center.lng
      let openStatus :=
        if d.openNow = some true then
          match d.closingTime with
          | some c => "Open now • Closes at " ++ c
          | none => "Open now"
        else "Hours unknown • Check on Maps"
      some
        { id := d.placeId
          name := d.name
          category := category
          rating := some (clamp (d.rating.getD (22 / 5)) (41 / 10) 5)
          etaMin := 20
          openStatus := openStatus
          lat := lat
          lng := lng
          address := d.formattedAddress.getD ""
          closingTime := d.closingTime
          placeId := some d.placeId
          priceLevel := d.priceLevel
          userRatingsTotal := d.userRatingsTotal
          closeTs := d.closeTs }

/-- Stable insertion used by `sortBy`. -/
def insertBy {α : Type} (le : α → α → Bool) (x : α) : List α → List α
  | [] => [x]
  | y :: ys => if le x y then x :: y :: ys else y :: insertBy le x ys

/-- Stable sort by a boolean "may come before" relation; models the
`Array.prototype.sort` calls (all order-sensitive conclusions below go
through membership only). -/
def sortBy {α : Type} (le : α → α → Bool) : List α → List α
  | [] => []
  | x :: xs => insertBy le x (sortBy le xs)

/-- `o.category || "Other"` as used by the category counters. -/
def catOf (o : PlanOption) : String := if o.category = "" then "Other" else o.category

/-- `diversifyPool`: caps each category at `maxPer` occurrences while
preserving order; `counts` threads the `Map` of per-category counts. -/
def diversifyGo (maxPer : Nat) : List Scored → (String → Nat) → List Scored
  | [], _ => []
  | it :: rest, counts =>
    if maxPer ≤ counts (catOf it.1) then diversifyGo maxPer rest counts
    else it :: diversifyGo maxPer rest
      (fun x => if x = catOf it.1 then counts (catOf it.1) + 1 else counts x)

/-- `diversifyPool(items, maxPerCategory)`. -/
def diversifyPool (items : List Scored) (maxPer : Nat) : List Scored :=
  diversifyGo maxPer items (fun _ => 0)

/-- `fallbackVibesForSwap`: the ordered relaxation list per primary vibe. -/
def fallbackVibesForSwap (primary : String) : List String :=
  if primary = "Productive" then ["Productive", "Cozy", "Social"]
  else if primary = "Cozy" then ["Cozy", "Productive", "Social"]
  else if primary = "Social" then ["Social", "Cozy", "Luxury"]
  else if primary = "Outdoors" then ["Outdoors", "Social", "Cozy"]
  else if primary = "Luxury" then ["Luxury", "Social", "Cozy"]
  else [primary, "Cozy", "Social"]

/-- The retrieval loop of `POST` over `vibeOrder`: appends each vibe's lane
candidates and stops early once the accumulated count reaches 140. -/
def gatherLoop (lanes : String → List GoogleCandidate) :
    List String → List GoogleCandidate → List GoogleCandidate
  | [], acc => acc
  | v :: rest, acc =>
    let acc' := acc ++ lanes v
    if 140 ≤ acc'.length then acc' else gatherLoop lanes rest acc'

/-- Cross-vibe dedup step of `POST`: keeps the first occurrence per
`placeId`, dropping candidates with a falsy (empty) `placeId`. -/
def dedupCandsGo : List GoogleCandidate → List String → List GoogleCandidate
  | [], _ => []
  | c :: rest, seen =>
    if c.placeId = "" then dedupCandsGo rest seen
    else if seen.contains c.placeId then dedupCandsGo rest seen
    else c :: dedupCandsGo rest (c.placeId :: seen)

/-- Dedup by provider identifier. -/
def dedupCands (l : List GoogleCandidate) : List GoogleCandidate := dedupCandsGo l []

/-- JS truthiness of `o.closeTs` (`0` is falsy). -/
def truthyCloseTs : Option Int → Bool
  | some t => t ≠ 0
  | none => false

/-- JS truthiness of `o.closingTime` (`""` is falsy). -/
def truthyClosingTime : Option String → Bool
  | some s => s ≠ ""
  | none => false

/-- Dedup key of the score-sorted option list:
`(o.placeId ?? "").trim() || name.toLowerCase()+"|"+address.toLowerCase()`. -/
def dedupKey (o : PlanOption) : String :=
  let pid := trimStr (o.placeId.getD "")
  if pid ≠ "" then pid else lowerStr o.name ++ "|" ++ lowerStr o.address

/-- Dedup of scored options by `dedupKey`, keeping the first (highest
scored) occurrence. -/
def dedupeScoredGo : List Scored → List String → List Scored
  | [], _ => []
  | o :: rest, keys =>
    let k := dedupKey o.1
    if keys.contains k then dedupeScoredGo rest keys
    else o :: dedupeScoredGo rest (k :: keys)

/-- Dedup by `dedupKey` with empty initial key set. -/
def dedupeScored (l : List Scored) : List Scored := dedupeScoredGo l []

/-- Number of occurrences of category `c` (after the `|| "Other"`
defaulting) in a scored list. -/
def countCat (l : List Scored) (c : String) : Nat :=
  (l.filter (fun p => catOf p.1 = c)).length

/-- The shortlist selection loop (`while (picked.length < 5 && ...)`).
`pick` abstracts `weightedPick`; the `Bool` result is a ghost flag
recording whether the fallback `poolForPick = remaining` branch (taken when
every remaining candidate's category already reached the cap of 2) was ever
used — it does not influence the picked list. -/
def selectGo (pick : List Scored → Option Scored) :
    Nat → List Scored → List Scored → Bool → List Scored × Bool
  | 0, picked, _, usedFallback => (picked, usedFallback)
  | fuel + 1, picked, remaining, usedFallback =>
    if picked.length < 5 ∧ remaining ≠ [] then
      let candidatesNow := remaining.filter (fun o => countCat picked (catOf o.1) < 2)
      let poolForPick := if candidatesNow.isEmpty then remaining else candidatesNow
      match pick poolForPick with
      | none => (picked, usedFallback)
      | some chosen =>
        let picked' := picked ++ [chosen]
        let ck := trimStr (chosen.1.placeId.getD "")
        let chosenKey := if ck ≠ "" then ck else lowerStr chosen.1.name
        let remaining' := remaining.filter (fun o =>
          (if trimStr (o.1.placeId.getD "") ≠ "" then trimStr (o.1.placeId.getD "")
           else lowerStr o.1.name) ≠ chosenKey)
        selectGo pick fuel picked' remaining' (usedFallback || candidatesNow.isEmpty)
    else (picked, usedFallback)

/-- Post-check of the selector: when all 5 picks share one category, the
last pick is swapped for the first `top30` candidate of another category,
when one exists. -/
def postCheck (top30 picked : List Scored) : List Scored :=
  if picked.length = 5 ∧ ((picked.map (fun p => p.1.category)).dedup).length = 1 then
    match picked with
    | [] => picked
    | p0 :: _ =>
      match top30.find? (fun o => o.1.category ≠ p0.1.category) with
      | some alt => picked.dropLast ++ [alt]
      | none => picked
  else picked

/-- Request-scoped environment of the pure pipeline slice of `POST`.  The
external effects are inputs: `lanes v` is the deduplicated result of
`collectCandidatesMultiLane` for vibe `v`; `details p` the parsed result of
`fetchPlaceDetailsById p tzOffsetSec` (or `none` on any failure);
`scoreFn`/`pick` abstract the randomised scorer and `weightedPick`;
`seenIds`/`swappedIds` are the sanitized freshness sets. -/
structure PlanEnv where
  dist : Coord → Coord → ℚ
  lanes : String → List GoogleCandidate
  details : String → Option DetailRecord
  scoreFn : PlanOption → ℚ
  pick : List Scored → Option Scored
  vibe : String
  center : Coord
  nowMs : Int
  tzOffsetSec : Int
  cityHour : Int
  flags : WeatherFlags
  seenIds : List String
  swappedIds : List String

/-- `ALLOWED_BY_VIBE[vibe] ?? ALLOWED_BY_VIBE["Social"]` (line computing
`allowedCategories`). -/
def allowedCategories (env : PlanEnv) : List String :=
  (ALLOWED_BY_VIBE env.vibe).getD ((ALLOWED_BY_VIBE "Social").getD [])

/-- The strict (shortlist) profile for `hardReject`. -/
def strictArgs (env : PlanEnv) : RejectArgs :=
  { minRemaining := MIN_REMAINING_MIN
    allowUnknownHours := false
    maxDistKm := MAX_DIST_KM_SHORTLIST
    allowedSet := allowedCategories env
    center := env.center
    nowMs := env.nowMs
    tzOffsetSec := env.tzOffsetSec
    cityHour := env.cityHour
    flags := env.flags }

/-- The relaxed (swap pool) profile for `hardReject`. -/
def relaxedArgs (env : PlanEnv) : RejectArgs :=
  { minRemaining := RELAXED_REMAINING_MIN
    allowUnknownHours := true
    maxDistKm := MAX_DIST_KM_SWAP
    allowedSet := allowedCategories env
    center := env.center
    nowMs := env.nowMs
    tzOffsetSec := env.tzOffsetSec
    cityHour := env.cityHour
    flags := env.flags }

/-- Comparator of the candidate sort in `POST` (not-seen first, then
ascending distance to center). -/
def candLe (env : PlanEnv) (a b : GoogleCandidate) : Bool :=
  let ra : Nat := if env.seenIds.contains a.placeId then 1 else 0
  let rb : Nat := if env.seenIds.contains b.placeId then 1 else 0
  if ra ≠ rb then ra ≤ rb
  else env.dist env.center ⟨a.lat, a.lng⟩ ≤ env.dist env.center ⟨b.lat, b.lng⟩

/-- Candidate list fed into `buildOptionsFromCandidates`: gathered over the
vibe order with early stop, deduplicated, sorted, and purged of swapped
place ids (the `hardExclude` filter). -/
def candidatesFiltered (env : PlanEnv) : List GoogleCandidate :=
  let gathered := gatherLoop env.lanes (fallbackVibesForSwap env.vibe) []
  let uniq := dedupCands gathered
  let sortedC := sortBy (candLe env) uniq
  sortedC.filter (fun c => !(env.swappedIds.contains c.placeId))

/-- `buildOptionsFromCandidates`: distance-sort, truncate to the details
budget, resolve details, and build options. -/
def buildOptionsFromCandidates (env : PlanEnv) (cands : List GoogleCandidate) :
    List PlanOption :=
  let sorted := sortBy (fun a b =>
    env.dist env.center ⟨a.lat, a.lng⟩ ≤ env.dist env.center ⟨b.lat, b.lng⟩) cands
  let slice := sorted.take DETAILS_CAP_TOTAL
  slice.filterMap (fun c =>
    (env.details c.placeId).bind
      (buildOptionFromDetail env.vibe (allowedCategories env) env.center))

/-- Scoring plus descending score sort (`sort((a, b) => b._score - a._score)`). -/
def scoredSorted (env : PlanEnv) (built : List PlanOption) : List Scored :=
  sortBy (fun a b => b.2 ≤ a.2) (built.map (fun o => (o, env.scoreFn o)))

/-- The `deduped` list of `POST`: built options, scored, sorted, deduped. -/
def dedupedOf (env : PlanEnv) : List Scored :=
  dedupeScored (scoredSorted env (buildOptionsFromCandidates env (candidatesFiltered env)))

/-- Keep-predicate of the swap pool filter. -/
def swapKeep (env : PlanEnv) (p : Scored) : Bool :=
  (hardReject env.dist p.1 (relaxedArgs env)).isNone

/-- The returned swap pool: relaxed feasibility filter, optional not-seen
refinement (`Math.floor(TARGET_SWAP_POOL * 0.7) = 18`), diversity cap 6,
truncation to `MAX_POOL_RETURN`. -/
def planSwapPool (env : PlanEnv) : List Scored :=
  let sf := (dedupedOf env).filter (swapKeep env)
  let notSeen := sf.filter (fun p => !(env.seenIds.contains (trimStr (p.1.placeId.getD ""))))
  let pool := if 18 ≤ notSeen.length then notSeen else sf
  (diversifyPool pool 6).take MAX_POOL_RETURN

/-- Keep-predicate of `strictCandidates`: explicit "open now" status text, a
truthy known close, and the strict `hardReject` profile. -/
def strictKeep (env : PlanEnv) (p : Scored) : Bool :=
  strContains (lowerStr p.1.openStatus) "open now" &&
    (truthyCloseTs p.1.closeTs || truthyClosingTime p.1.closingTime) &&
    (hardReject env.dist p.1 (strictArgs env)).isNone

/-- `strictCandidates`. -/
def strictListOf (env : PlanEnv) : List Scored :=
  (dedupedOf env).filter (strictKeep env)

/-- `top30 = strictCandidates.slice(0, 30)`. -/
def top30Of (env : PlanEnv) : List Scored := (strictListOf env).take 30

/-- The selection loop run (at most 5 iterations add a pick, so fuel 5 is
exact). -/
def selectionOf (env : PlanEnv) : List Scored × Bool :=
  selectGo env.pick 5 [] (top30Of env) false

/-- The returned shortlist (before the cosmetic id remap / copy fill, which
do not change identity-relevant fields). -/
def planShortlist (env : PlanEnv) : List Scored :=
  postCheck (top30Of env) (selectionOf env).1

/-! ### Stage lemmas -/

theorem mem_insertBy {α : Type} (le : α → α → Bool) (x : α) (l : List α) (y : α) :
    y ∈ insertBy le x l ↔ y = x ∨ y ∈ l := by
  induction l with
  | nil => simp [insertBy]
  | cons a as ih =>
    simp only [insertBy]
    split
    · simp [List.mem_cons]
    · simp only [List.mem_cons, ih]
      tauto

theorem mem_sortBy {α : Type} (le : α → α → Bool) (l : List α) (y : α) :
    y ∈ sortBy le l ↔ y ∈ l := by
  induction l with
  | nil => simp [sortBy]
  | cons a as ih => simp [sortBy, mem_insertBy, ih]

theorem mem_dedupCandsGo (l : List GoogleCandidate) (seen : List String)
    (c : GoogleCandidate) (h : c ∈ dedupCandsGo l seen) : c ∈ l := by
  induction l generalizing seen with
  | nil => simp [dedupCandsGo] at h
  | cons a as ih =>
    simp only [dedupCandsGo] at h
    split at h
    · exact List.mem_cons_of_mem _ (ih _ h)
    · split at h
      · exact List.mem_cons_of_mem _ (ih _ h)
      · rcases List.mem_cons.1 h with rfl | h'
        · exact List.mem_cons_self _ _
        · exact List.mem_cons_of_mem _ (ih _ h')

theorem mem_dedupeScoredGo (l : List Scored) (keys : List String) (p : Scored)
    (h : p ∈ dedupeScoredGo l keys) : p ∈ l := by
  induction l generalizing keys with
  | nil => simp [dedupeScoredGo] at h
  | cons a as ih =>
    simp only [dedupeScoredGo] at h
    split at h
    · exact List.mem_cons_of_mem _ (ih _ h)
    · rcases List.mem_cons.1 h with rfl | h'
      · exact List.mem_cons_self _ _
      · exact List.mem_cons_of_mem _ (ih _ h')

theorem mem_diversifyGo (maxPer : Nat) (l : List Scored) (counts : String → Nat)
    (p : Scored) (h : p ∈ diversifyGo maxPer l counts) : p ∈ l := by
  induction l generalizing counts with
  | nil => simp [diversifyGo] at h
  | cons a as ih =>
    simp only [diversifyGo] at h
    split at h
    · exact List.mem_cons_of_mem _ (ih _ h)
    · rcases List.mem_cons.1 h with rfl | h'
      · exact List.mem_cons_self _ _
      · exact List.mem_cons_of_mem _ (ih _ h')

theorem mem_gatherLoop (lanes : String → List GoogleCandidate) (vs : List String)
    (acc : List GoogleCandidate) (c : GoogleCandidate)
    (h : c ∈ gatherLoop lanes vs acc) : c ∈ acc ∨ ∃ v ∈ vs, c ∈ lanes v := by
  induction vs generalizing acc with
  | nil => exact Or.inl (by simpa [gatherLoop] using h)
  | cons v rest ih =>
    simp only [gatherLoop] at h
    split at h
    · rcases List.mem_append.1 h with h1 | h2
      · exact Or.inl h1
      · exact Or.inr ⟨v, List.mem_cons_self _ _, h2⟩
    · rcases ih _ h with hacc | ⟨w, hw, hc⟩
      · rcases List.mem_append.1 hacc with h1 | h2
        · exact Or.inl h1
        · exact Or.inr ⟨v, List.mem_cons_self _ _, h2⟩
      · exact Or.inr ⟨w, List.mem_cons_of_mem _ hw, hc⟩

theorem selectGo_mem (pick : List Scored → Option Scored)
    (hpick : ∀ l x, pick l = some x → x ∈ l) (fuel : Nat) :
    ∀ picked remaining b x, x ∈ (selectGo pick fuel picked remaining b).1 →
      x ∈ picked ∨ x ∈ remaining := by
  induction fuel with
  | zero => intro picked remaining b x hx; exact Or.inl hx
  | succ fuel ih =>
    intro picked remaining b x hx
    simp only [selectGo] at hx
    split at hx
    · split at hx
      · exact Or.inl hx
      · rename_i chosen hch
        have hchosen : chosen ∈ remaining := by
          have hmem := hpick _ _ hch
          split at hmem
          · exact hmem
          · exact List.mem_of_mem_filter hmem
        rcases ih _ _ _ _ hx with hp | hr
        · rcases List.mem_append.1 hp with h1 | h2
          · exact Or.inl h1
          · simp only [List.mem_singleton] at h2
            exact Or.inr (h2 ▸ hchosen)
        · exact Or.inr (List.mem_of_mem_filter hr)
    · exact Or.inl hx

theorem selectGo_flag (pick : List Scored → Option Scored) (fuel : Nat) :
    ∀ picked remaining b, (selectGo pick fuel picked remaining b).2 = false → b = false := by
  induction fuel with
  | zero => intro picked remaining b h; exact h
  | succ fuel ih =>
    intro picked remaining b h
    simp only [selectGo] at h
    split at h
    · split at h
      · exact h
      · have := ih _ _ _ h
        exact (Bool.or_eq_false_iff.1 this).1
    · exact h

theorem mem_postCheck (top30 picked : List Scored) (p : Scored)
    (h : p ∈ postCheck top30 picked) : p ∈ picked ∨ p ∈ top30 := by
  unfold postCheck at h
  split at h
  · split at h
    · exact Or.inl h
    · split at h
      · rename_i hfind
        rcases List.mem_append.1 h with h1 | h2
        · exact Or.inl ((List.dropLast_sublist _).subset h1)
        · simp only [List.mem_singleton] at h2
          exact Or.inr (h2 ▸ List.mem_of_find?_eq_some hfind)
      · exact Or.inl h
  · exact Or.inl h

theorem mem_planShortlist_strict (env : PlanEnv)
    (hpick : ∀ l x, env.pick l = some x → x ∈ l) (p : Scored)
    (h : p ∈ planShortlist env) : p ∈ strictListOf env := by
  unfold planShortlist at h
  rcases mem_postCheck _ _ _ h with h1 | h2
  · unfold selectionOf at h1
    rcases selectGo_mem env.pick hpick 5 [] (top30Of env) false p h1 with h3 | h4
    · simp at h3
    · exact List.mem_of_mem_take h4
  · exact List.mem_of_mem_take h2

theorem mem_dedupedOf (env : PlanEnv) (p : Scored) (h : p ∈ dedupedOf env) :
    ∃ c ∈ candidatesFiltered env, ∃ d, env.details c.placeId = some d ∧
      buildOptionFromDetail env.vibe (allowedCategories env) env.center d = some p.1 ∧
      p.2 = env.scoreFn p.1 := by
  unfold dedupedOf at h
  have h1 := mem_dedupeScoredGo _ _ _ h
  unfold scoredSorted at h1
  rw [mem_sortBy] at h1
  obtain ⟨o, ho, rfl⟩ := List.mem_map.1 h1
  unfold buildOptionsFromCandidates at ho
  obtain ⟨c, hc, hcd⟩ := List.mem_filterMap.1 ho
  obtain ⟨d, hd, hbuild⟩ := Option.bind_eq_some.1 hcd
  refine ⟨c, ?_, d, hd, hbuild, rfl⟩
  exact (mem_sortBy _ _ _).1 (List.mem_of_mem_take hc)

theorem mem_candidatesFiltered (env : PlanEnv) (c : GoogleCandidate)
    (h : c ∈ candidatesFiltered env) :
    (∃ v ∈ fallbackVibesForSwap env.vibe, c ∈ env.lanes v) ∧
      env.swappedIds.contains c.placeId = false := by
  unfold candidatesFiltered at h
  rw [List.mem_filter] at h
  obtain ⟨h1, h2⟩ := h
  rw [mem_sortBy] at h1
  have h3 := mem_dedupCandsGo _ _ _ h1
  rcases mem_gatherLoop _ _ _ _ h3 with habs | hlane
  · simp at habs
  · exact ⟨hlane, by simpa using h2⟩

/-! ### Inversion lemmas for the filter and the option builder -/

/-- The feasibility filter as a flat first-match-wins chain: category not
allowed, provider-reported "closed" text, distance beyond the profile
maximum, unknown remaining minutes (rejected when the profile disallows
unknown hours, otherwise accepted immediately without reaching the weather
guard), known remaining minutes below the profile minimum, weather guard
for outdoor-leaning categories. -/
def hardRejectSpecOrder (dist : Coord → Coord → ℚ) (opt : PlanOption) (args : RejectArgs) :
    Option String :=
  let mins := minutesUntilClose args.nowMs args.tzOffsetSec opt.closingTime opt.closeTs
  if !(args.allowedSet.contains opt.category) then some "vibe_mismatch"
  else if strContains (lowerStr opt.openStatus) "closed" then some "closed"
  else if args.maxDistKm < dist args.center ⟨opt.lat, opt.lng⟩ then some "too_far"
  else if mins.isNone then
    (if args.allowUnknownHours then none else some "unknown_hours")
  else if mins.getD 0 < args.minRemaining then some "closing_soon"
  else if isOutdoorishCategory opt.category &&
      (args.flags.precip || args.flags.veryCold || args.flags.veryWindy ||
        (args.flags.cold && (18 : Int) ≤ args.cityHour)) then some "weather_block"
  else none

theorem hardReject_eq_chain (dist : Coord → Coord → ℚ) (opt : PlanOption)
    (args : RejectArgs) : hardReject dist opt args = hardRejectSpecOrder dist opt args := by
  simp only [hardReject, hardRejectSpecOrder]
  rcases hm : minutesUntilClose args.nowMs args.tzOffsetSec opt.closingTime opt.closeTs
    with _ | m
  · simp only [Option.isNone_none]
    split_ifs <;> rfl
  · simp only [Option.isNone_some, Option.getD_some]
    by_cases hcs : m < args.minRemaining
    · simp [hcs]
    · simp only [hcs, if_false]
      cases hA : isOutdoorishCategory opt.category <;>
        cases hp : args.flags.precip <;>
          cases hvc : args.flags.veryCold <;>
            cases hvw : args.flags.veryWindy <;>
              cases hc : args.flags.cold <;>
                cases hh : decide ((18 : Int) ≤ args.cityHour) <;>
                  simp [hA, hp, hvc, hvw, hc, hh]

theorem hardReject_none (dist : Coord → Coord → ℚ) (opt : PlanOption) (args : RejectArgs)
    (h : hardReject dist opt args = none) :
    args.allowedSet.contains opt.category = true ∧
      strContains (lowerStr opt.openStatus) "closed" = false ∧
      dist args.center ⟨opt.lat, opt.lng⟩ ≤ args.maxDistKm ∧
      (minutesUntilClose args.nowMs args.tzOffsetSec opt.closingTime opt.closeTs = none →
        args.allowUnknownHours = true) ∧
      (∀ m, minutesUntilClose args.nowMs args.tzOffsetSec opt.closingTime opt.closeTs = some m →
        args.minRemaining ≤ m) := by
  rw [hardReject_eq_chain] at h
  simp only [hardRejectSpecOrder] at h
  split_ifs at h with h1 h2 h3 h4 h5 h6 h7 <;>
    first
      | (simp at h; done)
      | refine ⟨by simpa using h1, by simpa using h2, le_of_not_lt h3,
            fun hm => ?_, fun m hm => ?_⟩ <;>
          first
            | exact h5
            | (rw [hm] at h4; simp at h4; done)
            | (rw [hm] at h6; simpa using le_of_not_lt h6)

theorem buildOption_some (vibe : String) (allowedSet : List String) (center : Coord)
    (d : DetailRecord) (o : PlanOption)
    (h : buildOptionFromDetail vibe allowedSet center d = some o) :
    d.openNow ≠ some false ∧
      o.category = googleTypeToInternalCategory d.types vibe ∧
      allowedSet.contains o.category = true ∧
      o.rating = some (clamp (d.rating.getD (22 / 5)) (41 / 10) 5) ∧
      o.closingTime = d.closingTime ∧
      o.closeTs = d.closeTs ∧
      o.placeId = some d.placeId ∧
      o.openStatus = (if d.openNow = some true then
          (match d.closingTime with
            | some c => "Open now • Closes at " ++ c
            | none => "Open now")
        else "Hours unknown • Check on Maps") := by
  unfold buildOptionFromDetail at h
  split at h
  · simp at h
  split at h
  · simp at h
  rename_i hbs hopen
  simp only [] at h
  split at h
  · simp at h
  rename_i hallow
  split at h <;>
    (injection h with h; subst h;
      refine ⟨hopen, rfl, ?_, rfl, rfl, rfl, rfl, ?_⟩ <;> simp_all)

/-! ### Concrete fixtures used by witnesses and counterexamples -/

/-- A provider details record for a plain cafe (no provider rating). -/
def recW : DetailRecord :=
  { placeId := "pl1", name := "Cafe One", rating := none, userRatingsTotal := some 100,
    priceLevel := some 2, types := ["cafe"], openNow := some true, businessStatus := none,
    closingTime := some "10:00 PM", closeTs := some 1000036000000,
    formattedAddress := some "1 Main St", lat := some 1, lng := some 2, photoUrls := [] }

/-- The retrieval candidate matching `recW`. -/
def candW : GoogleCandidate := { placeId := "pl1", name := "Cafe One", lat := 1, lng := 2 }

/-- Calm weather (no flag raised). -/
def calmFlags : WeatherFlags :=
  { precip := false, cold := false, veryCold := false, windy := false, veryWindy := false,
    minTemp := 10 }

/-- Weather flags with precipitation expected. -/
def precipFlags : WeatherFlags :=
  { precip := true, cold := false, veryCold := false, windy := false, veryWindy := false,
    minTemp := 10 }

/-- A concrete environment: primary vibe "Productive" whose own lanes came
back empty, while the first fallback vibe ("Cozy") found `candW`; details
resolve only `candW`; constant zero distance; score constant; the picker
takes the head of the offered list (one possible draw of `weightedPick`). -/
def envW : PlanEnv :=
  { dist := fun _ _ => 0
    lanes := fun v => if v = "Cozy" then [candW] else []
    details := fun p => if p = "pl1" then some recW else none
    scoreFn := fun _ => 0
    pick := List.head?
    vibe := "Productive"
    center := ⟨0, 0⟩
    nowMs := 1000000000000
    tzOffsetSec := 0
    cityHour := 12
    flags := calmFlags
    seenIds := []
    swappedIds := [] }

/-- Head picking always returns a member: the validity hypothesis placed on
the abstract picker, discharged for `envW`. -/
theorem headPick_valid : ∀ (l : List Scored) (x : Scored), envW.pick l = some x → x ∈ l := by
  intro l x h
  cases l with
  | nil => simp [envW] at h
  | cons a as =>
    simp only [envW, List.head?] at h
    injection h with h
    exact h ▸ List.mem_cons_self _ _

/-- Details records of `envW` carry the queried place id. -/
theorem envW_details_id : ∀ p d, envW.details p = some d → d.placeId = p := by
  intro p d h
  simp only [envW] at h
  split at h
  · rename_i hp
    injection h with h
    subst hp
    rw [← h]
    rfl
  · simp at h

/-! ### Claim C1 -/

theorem mapsInto_cozy (types : List String) :
    googleTypeToInternalCategory types "Cozy" ∈
      ["Cafe", "Dessert", "Bookstore", "Wine Bar", "Tea House"] := by
  unfold googleTypeToInternalCategory
  generalize (types.contains "bar" || types.contains "night_club") = bA
  generalize (types.contains "bowling_alley" || types.contains "movie_theater" ||
    types.contains "amusement_park" || types.contains "casino") = bB
  generalize types.contains "restaurant" = bC
  generalize types.contains "cafe" = bD
  generalize types.contains "bakery" = bE
  generalize types.contains "library" = bF
  generalize types.contains "book_store" = bG
  generalize types.contains "park" = bH
  generalize (types.contains "tourist_attraction" || types.contains "point_of_interest") = bI
  generalize (types.contains "museum" || types.contains "art_gallery" ||
    types.contains "stadium" || types.contains "theater") = bJ
  revert bA bB bC bD bE bF bG bH bI bJ
  decide

theorem mapsInto_outdoors (types : List String) :
    googleTypeToInternalCategory types "Outdoors" ∈
      ["Park", "Scenic Walk", "Waterfront", "Outdoor Market", "Activity"] := by
  unfold googleTypeToInternalCategory
  generalize (types.contains "bar" || types.contains "night_club") = bA
  generalize (types.contains "bowling_alley" || types.contains "movie_theater" ||
    types.contains "amusement_park" || types.contains "casino") = bB
  generalize types.contains "restaurant" = bC
  generalize types.contains "cafe" = bD
  generalize types.contains "bakery" = bE
  generalize types.contains "library" = bF
  generalize types.contains "book_store" = bG
  generalize types.contains "park" = bH
  generalize (types.contains "tourist_attraction" || types.contains "point_of_interest") = bI
  generalize (types.contains "museum" || types.contains "art_gallery" ||
    types.contains "stadium" || types.contains "theater") = bJ
  revert bA bB bC bD bE bF bG bH bI bJ
  decide

theorem mapsInto_productive (types : List String) :
    googleTypeToInternalCategory types "Productive" ∈
      ["Library", "Work Cafe", "Quiet Workspace", "Study Spot"] := by
  unfold googleTypeToInternalCategory
  generalize (types.contains "bar" || types.contains "night_club") = bA
  generalize (types.contains "bowling_alley" || types.contains "movie_theater" ||
    types.contains "amusement_park" || types.contains "casino") = bB
  generalize types.contains "restaurant" = bC
  generalize types.contains "cafe" = bD
  generalize types.contains "bakery" = bE
  generalize types.contains "library" = bF
  generalize types.contains "book_store" = bG
  generalize types.contains "park" = bH
  generalize (types.contains "tourist_attraction" || types.contains "point_of_interest") = bI
  generalize (types.contains "museum" || types.contains "art_gallery" ||
    types.contains "stadium" || types.contains "theater") = bJ
  revert bA bB bC bD bE bF bG bH bI bJ
  decide

theorem mapsInto_social (types : List String) :
    googleTypeToInternalCategory types "Social" ∈
      ["Bar", "Group Dining", "Activity Venue", "Event Space"] := by
  unfold googleTypeToInternalCategory
  generalize (types.contains "bar" || types.contains "night_club") = bA
  generalize (types.contains "bowling_alley" || types.contains "movie_theater" ||
    types.contains "amusement_park" || types.contains "casino") = bB
  generalize types.contains "restaurant" = bC
  generalize types.contains "cafe" = bD
  generalize types.contains "bakery" = bE
  generalize types.contains "library" = bF
  generalize types.contains "book_store" = bG
  generalize types.contains "park" = bH
  generalize (types.contains "tourist_attraction" || types.contains "point_of_interest") = bI
  generalize (types.contains "museum" || types.contains "art_gallery" ||
    types.contains "stadium" || types.contains "theater") = bJ
  revert bA bB bC bD bE bF bG bH bI bJ
  decide

theorem mapsInto_luxury (types : List String) :
    googleTypeToInternalCategory types "Luxury" ∈
      ["Fine Dining", "Rooftop Bar", "Specialty Dessert", "Premium Spot"] := by
  unfold googleTypeToInternalCategory
  generalize (types.contains "bar" || types.contains "night_club") = bA
  generalize (types.contains "bowling_alley" || types.contains "movie_theater" ||
    types.contains "amusement_park" || types.contains "casino") = bB
  generalize types.contains "restaurant" = bC
  generalize types.contains "cafe" = bD
  generalize types.contains "bakery" = bE
  generalize types.contains "library" = bF
  generalize types.contains "book_store" = bG
  generalize types.contains "park" = bH
  generalize (types.contains "tourist_attraction" || types.contains "point_of_interest") = bI
  generalize (types.contains "museum" || types.contains "art_gallery" ||
    types.contains "stadium" || types.contains "theater") = bJ
  revert bA bB bC bD bE bF bG bH bI bJ
  decide

/-- C1: for every vibe key of `ALLOWED_BY_VIBE` and every list of provider
type tags, `googleTypeToInternalCategory` returns a category belonging to
the vibe's allowed category list; and the option builder used by
`buildOptionsFromCandidates` only emits options whose category is in the
allowed set it is given. -/
theorem c1_mapping_invariant :
    (∀ (vibe : String) (allowed : List String), ALLOWED_BY_VIBE vibe = some allowed →
      ∀ types : List String, googleTypeToInternalCategory types vibe ∈ allowed) ∧
    (∀ (vibe : String) (allowedSet : List String) (center : Coord) (d : DetailRecord)
      (o : PlanOption), buildOptionFromDetail vibe allowedSet center d = some o →
        allowedSet.contains o.category = true) := by
  constructor
  · intro vibe allowed h types
    unfold ALLOWED_BY_VIBE at h
    split_ifs at h with h1 h2 h3 h4 h5 <;> injection h with h <;> subst_vars
    · exact mapsInto_cozy types
    · exact mapsInto_outdoors types
    · exact mapsInto_productive types
    · exact mapsInto_social types
    · exact mapsInto_luxury types
  · intro vibe allowedSet center d o h
    exact (buildOption_some vibe allowedSet center d o h).2.2.1

/-- Witness for C1: the mapping invariant applied at vibe "Cozy" with tags
`["bar"]`, and the builder invariant applied at `recW`. -/
theorem c1_mapping_invariant_witness :
    googleTypeToInternalCategory ["bar"] "Cozy" ∈
        ["Cafe", "Dessert", "Bookstore", "Wine Bar", "Tea House"] ∧
      ∃ o, buildOptionFromDetail "Cozy" ["Cafe", "Dessert", "Bookstore", "Wine Bar", "Tea House"]
          ⟨0, 0⟩ recW = some o ∧
        ["Cafe", "Dessert", "Bookstore", "Wine Bar", "Tea House"].contains o.category = true := by
  constructor
  · exact c1_mapping_invariant.1 "Cozy" _ rfl ["bar"]
  · have hs : (buildOptionFromDetail "Cozy"
        ["Cafe", "Dessert", "Bookstore", "Wine Bar", "Tea House"] ⟨0, 0⟩ recW).isSome = true := by
      decide
    have hg := Option.some_get hs
    exact ⟨_, hg.symm, c1_mapping_invariant.2 "Cozy"
      ["Cafe", "Dessert", "Bookstore", "Wine Bar", "Tea House"] ⟨0, 0⟩ recW _ hg.symm⟩

/-! ### Claims C5, C6, C7 (feasibility filter behaviour) -/

/-- Constant-zero distance function (places the venue at the center). -/
def dzero : Coord → Coord → ℚ := fun _ _ => 0

/-- Constant distance of 100 km (beyond every profile maximum). -/
def dfar : Coord → Coord → ℚ := fun _ _ => 100

/-- The Cozy allowed-category list. -/
def cozyCats : List String := ["Cafe", "Dessert", "Bookstore", "Wine Bar", "Tea House"]

/-- The Outdoors allowed-category list. -/
def outdoorCats : List String := ["Park", "Scenic Walk", "Waterfront", "Outdoor Market", "Activity"]

/-- Base option fixture: an open cafe with `closeTs` 30 minutes after the
fixture `nowMs` of `1000000000000`. -/
def baseOpt : PlanOption :=
  { id := "pl9", name := "Base", category := "Cafe", rating := some 4, etaMin := 20,
    openStatus := "Open now • Closes at 9:30 PM", lat := 0, lng := 0, address := "2 Main St",
    closingTime := some "9:30 PM", placeId := some "pl9", priceLevel := none,
    userRatingsTotal := none, closeTs := some 1000001800000 }

/-- A "Park" option with completely unknown hours. -/
def parkUnknownOpt : PlanOption :=
  { baseOpt with
      category := "Park", openStatus := "Hours unknown • Check on Maps",
      closingTime := none, closeTs := none }

/-- A "Park" option with a known close 600 minutes away. -/
def parkKnownOpt : PlanOption :=
  { baseOpt with category := "Park", closeTs := some 1000036000000 }

/-- A closed option (provider-reported "Closed" status text). -/
def closedFarOpt : PlanOption := { baseOpt with openStatus := "Closed" }

/-- A "Dessert" option whose `closeTs` is 30 minutes out. -/
def dessert30Opt : PlanOption := { baseOpt with category := "Dessert" }

/-- The strict-profile argument record over a given weather and allowed list
(fixture center, `nowMs`, noon city hour). -/
def strictArgsW (fl : WeatherFlags) (allowed : List String) : RejectArgs :=
  { minRemaining := MIN_REMAINING_MIN, allowUnknownHours := false,
    maxDistKm := MAX_DIST_KM_SHORTLIST, allowedSet := allowed, center := ⟨0, 0⟩,
    nowMs := 1000000000000, tzOffsetSec := 0, cityHour := 12, flags := fl }

/-- The relaxed-profile argument record over a given weather and allowed
list. -/
def relaxedArgsW (fl : WeatherFlags) (allowed : List String) : RejectArgs :=
  { minRemaining := RELAXED_REMAINING_MIN, allowUnknownHours := true,
    maxDistKm := MAX_DIST_KM_SWAP, allowedSet := allowed, center := ⟨0, 0⟩,
    nowMs := 1000000000000, tzOffsetSec := 0, cityHour := 12, flags := fl }

/-- C5 counterexample: a "Park" candidate with unknown remaining minutes
under `precip = true` is accepted (`none`) by the relaxed profile — the
unknown-hours branch returns before the weather guard — and the strict
profile rejects it with "unknown_hours", not "weather_block". -/
theorem c5_weather_block_counterexample :
    hardReject dzero parkUnknownOpt (relaxedArgsW precipFlags outdoorCats) = none ∧
      hardReject dzero parkUnknownOpt (strictArgsW precipFlags outdoorCats) =
        some "unknown_hours" := by
  decide

/-- C5 amended: under precipitation, every outdoor-leaning candidate
(any category accepted by `isOutdoorishCategory`, such as "Park") that
passes the category, closed-text and distance checks is rejected with
"weather_block" by any profile whose minimum is met when its remaining
minutes are known; when its remaining minutes are unknown the filter never
reaches the weather guard: it returns "unknown_hours" if the profile
disallows unknown hours and accepts otherwise. -/
theorem c5_weather_block_amended (dist : Coord → Coord → ℚ) (opt : PlanOption)
    (args : RejectArgs)
    (hcat : isOutdoorishCategory opt.category = true)
    (hprecip : args.flags.precip = true)
    (hallow : args.allowedSet.contains opt.category = true)
    (hopen : strContains (lowerStr opt.openStatus) "closed" = false)
    (hdist : dist args.center ⟨opt.lat, opt.lng⟩ ≤ args.maxDistKm) :
    (∀ m, minutesUntilClose args.nowMs args.tzOffsetSec opt.closingTime opt.closeTs = some m →
      args.minRemaining ≤ m → hardReject dist opt args = some "weather_block") ∧
      (minutesUntilClose args.nowMs args.tzOffsetSec opt.closingTime opt.closeTs = none →
        hardReject dist opt args =
          (if args.allowUnknownHours then none else some "unknown_hours")) := by
  have hmem : opt.category ∈ args.allowedSet := by simpa using hallow
  constructor
  · intro m hm hge
    rw [hardReject_eq_chain]
    simp [hardRejectSpecOrder, hmem, hopen, hm, hcat, hprecip, not_lt.2 hdist, not_lt.2 hge]
  · intro hm
    rw [hardReject_eq_chain]
    simp [hardRejectSpecOrder, hmem, hopen, hm, not_lt.2 hdist]

/-- Witness for C5 (amended): the "Park" fixtures under precipitation. -/
theorem c5_weather_block_amended_witness :
    hardReject dzero parkKnownOpt (relaxedArgsW precipFlags outdoorCats) =
        some "weather_block" ∧
      hardReject dzero parkUnknownOpt (strictArgsW precipFlags outdoorCats) =
        some "unknown_hours" := by
  constructor
  · exact (c5_weather_block_amended dzero parkKnownOpt (relaxedArgsW precipFlags outdoorCats)
      (by decide) rfl (by decide) (by decide) (by decide)).1 600 (by decide) (by decide)
  · have h := (c5_weather_block_amended dzero parkUnknownOpt (strictArgsW precipFlags outdoorCats)
      (by decide) rfl (by decide) (by decide) (by decide)).2 (by decide)
    simpa using h

/-- C6 counterexample: a candidate simultaneously beyond the distance limit
(100 km under `dfar`) and reported "Closed" is rejected with reason
"closed", not with the distance reason the claim predicts. -/
theorem c6_order_counterexample :
    hardReject dfar closedFarOpt (strictArgsW calmFlags cozyCats) = some "closed" ∧
      hardReject dfar closedFarOpt (strictArgsW calmFlags cozyCats) ≠ some "too_far" ∧
      MAX_DIST_KM_SHORTLIST <
        dfar (strictArgsW calmFlags cozyCats).center ⟨closedFarOpt.lat, closedFarOpt.lng⟩ := by
  refine ⟨by decide, by decide, by norm_num [dfar, MAX_DIST_KM_SHORTLIST]⟩

/-- C6 amended: `hardReject` checks, in order with first match winning:
(1) category not allowed, (2) provider reports "closed", (3) distance
beyond the profile maximum, (4) remaining minutes unknown — rejected as
"unknown_hours" when the profile disallows unknown hours and accepted
immediately otherwise (skipping the weather guard), (5) remaining minutes
known and below the minimum, (6) weather guard; in particular a candidate
both too far and reported closed gets "closed". -/
theorem c6_rejection_order :
    ∀ (dist : Coord → Coord → ℚ) (opt : PlanOption) (args : RejectArgs),
      hardReject dist opt args = hardRejectSpecOrder dist opt args :=
  hardReject_eq_chain

/-- C7 counterexample: the "Dessert" candidate with `closeTs` 30 minutes
out is rejected by the relaxed (swap pool) profile too — 30 < 45 — so it is
not accepted into the swap pool as the claim states. -/
theorem c7_swap_accept_counterexample :
    hardReject dzero dessert30Opt (relaxedArgsW calmFlags cozyCats) = some "closing_soon" := by
  decide

/-- C7 amended: a candidate with `closeTs` 30 minutes in the future has
remaining minutes 30, so every profile whose minimum exceeds 30 — the
strict profile (75) and the relaxed profile (45) alike — rejects it with
"closing_soon"; it enters neither the shortlist nor the swap pool. -/
theorem c7_closing_soon_amended (dist : Coord → Coord → ℚ) (opt : PlanOption)
    (args : RejectArgs)
    (hallow : args.allowedSet.contains opt.category = true)
    (hopen : strContains (lowerStr opt.openStatus) "closed" = false)
    (hdist : dist args.center ⟨opt.lat, opt.lng⟩ ≤ args.maxDistKm)
    (hclose : opt.closeTs = some (args.nowMs + 30 * 60000))
    (hmin : 30 < args.minRemaining) :
    hardReject dist opt args = some "closing_soon" := by
  have h1 : args.nowMs + 30 * 60000 - args.nowMs = 1800000 := by omega
  have hm : minutesUntilClose args.nowMs args.tzOffsetSec opt.closingTime opt.closeTs =
      some 30 := by
    rw [hclose]
    simp [minutesUntilClose, h1]
  have hmem : opt.category ∈ args.allowedSet := by simpa using hallow
  rw [hardReject_eq_chain]
  simp [hardRejectSpecOrder, hmem, hopen, hm, not_lt.2 hdist, hmin]

/-- Witness for C7 (amended): the "Dessert" fixture against both profiles. -/
theorem c7_closing_soon_amended_witness :
    hardReject dzero dessert30Opt (strictArgsW calmFlags cozyCats) = some "closing_soon" ∧
      hardReject dzero dessert30Opt (relaxedArgsW calmFlags cozyCats) = some "closing_soon" := by
  constructor
  · exact c7_closing_soon_amended dzero dessert30Opt (strictArgsW calmFlags cozyCats)
      (by decide) (by decide) (by decide) (by decide) (by decide)
  · exact c7_closing_soon_amended dzero dessert30Opt (relaxedArgsW calmFlags cozyCats)
      (by decide) (by decide) (by decide) (by decide) (by decide)

/-! ### Claims C2, C3, C10 (pipeline output invariants) -/

theorem mem_planSwapPool (env : PlanEnv) (p : Scored) (h : p ∈ planSwapPool env) :
    p ∈ dedupedOf env ∧ (hardReject env.dist p.1 (relaxedArgs env)).isNone = true := by
  unfold planSwapPool at h
  have h1 := List.mem_of_mem_take h
  rw [diversifyPool] at h1
  have h2 := mem_diversifyGo _ _ _ _ h1
  split at h2
  · have h3 := List.mem_of_mem_filter h2
    rw [List.mem_filter] at h3
    exact ⟨h3.1, by simpa [swapKeep] using h3.2⟩
  · rw [List.mem_filter] at h2
    exact ⟨h2.1, by simpa [swapKeep] using h2.2⟩

/-- C2: every option in the returned shortlist was built from a details
record whose provider-reported open-now is explicitly `true`, carries a
truthy closing instant (`closeTs`) or closing label (`closingTime`), has
known remaining-open minutes of at least `MIN_REMAINING_MIN = 75`, and lies
within `MAX_DIST_KM_SHORTLIST = 10` km of the city center under the
pipeline's distance function (haversine in the source). -/
theorem c2_strict_shortlist_invariants (env : PlanEnv)
    (hpick : ∀ l x, env.pick l = some x → x ∈ l) :
    ∀ p ∈ planShortlist env, ∃ d : DetailRecord,
      (∃ c ∈ candidatesFiltered env, env.details c.placeId = some d ∧
        buildOptionFromDetail env.vibe (allowedCategories env) env.center d = some p.1) ∧
      d.openNow = some true ∧
      (truthyCloseTs p.1.closeTs || truthyClosingTime p.1.closingTime) = true ∧
      (∃ m, minutesUntilClose env.nowMs env.tzOffsetSec p.1.closingTime p.1.closeTs = some m ∧
        MIN_REMAINING_MIN ≤ m) ∧
      env.dist env.center ⟨p.1.lat, p.1.lng⟩ ≤ MAX_DIST_KM_SHORTLIST := by
  intro p hp
  have hstrict := mem_planShortlist_strict env hpick p hp
  rw [strictListOf, List.mem_filter] at hstrict
  obtain ⟨hded, hkeep⟩ := hstrict
  obtain ⟨c, hc, d, hd, hbuild, hscore⟩ := mem_dedupedOf env p hded
  simp only [strictKeep, Bool.and_eq_true] at hkeep
  obtain ⟨⟨hopen, hclosetruthy⟩, hrej⟩ := hkeep
  rw [Option.isNone_iff_eq_none] at hrej
  obtain ⟨hcontains, hnotclosed, hdist, hunknown, hmin⟩ :=
    hardReject_none env.dist p.1 (strictArgs env) hrej
  obtain ⟨hnotfalse, hcat, hcatmem, hrating, hct, hcts, hpid, hos⟩ :=
    buildOption_some env.vibe (allowedCategories env) env.center d p.1 hbuild
  have honTrue : d.openNow = some true := by
    rcases hon : d.openNow with _ | b
    · rw [hon] at hos
      simp only [reduceCtorEq, if_false] at hos
      rw [hos] at hopen
      exact absurd hopen (by decide)
    · cases b
      · exact absurd hon hnotfalse
      · rfl
  rcases hmv : minutesUntilClose env.nowMs env.tzOffsetSec p.1.closingTime p.1.closeTs
    with _ | m
  · have hbad := hunknown hmv
    simp [strictArgs] at hbad
  · exact ⟨d, ⟨c, hc, hd, hbuild⟩, honTrue, by simp [hclosetruthy],
      ⟨m, rfl, hmin m hmv⟩, hdist⟩

/-- Witness for C2: `envW` produces a nonempty shortlist and the invariants
hold over it. -/
theorem c2_strict_shortlist_invariants_witness :
    planShortlist envW ≠ [] ∧
      ∀ p ∈ planShortlist envW, ∃ d : DetailRecord,
        (∃ c ∈ candidatesFiltered envW, envW.details c.placeId = some d ∧
          buildOptionFromDetail envW.vibe (allowedCategories envW) envW.center d = some p.1) ∧
        d.openNow = some true ∧
        (truthyCloseTs p.1.closeTs || truthyClosingTime p.1.closingTime) = true ∧
        (∃ m, minutesUntilClose envW.nowMs envW.tzOffsetSec p.1.closingTime p.1.closeTs = some m ∧
          MIN_REMAINING_MIN ≤ m) ∧
        envW.dist envW.center ⟨p.1.lat, p.1.lng⟩ ≤ MAX_DIST_KM_SHORTLIST :=
  ⟨by decide, c2_strict_shortlist_invariants envW headPick_valid⟩

/-- C3: every option in the returned swap pool is within
`MAX_DIST_KM_SWAP = 14` km, has remaining-open minutes of at least
`RELAXED_REMAINING_MIN = 45` whenever they are known, and carries no place
id from the caller's swapped set; the shortlist also never carries a
swapped place id; and a candidate with unknown hours that passes the other
relaxed checks is accepted (unknown hours are permitted in the pool). -/
theorem c3_swap_pool_invariants (env : PlanEnv)
    (hpick : ∀ l x, env.pick l = some x → x ∈ l)
    (hdet : ∀ p d, env.details p = some d → d.placeId = p) :
    (∀ p ∈ planSwapPool env,
      env.dist env.center ⟨p.1.lat, p.1.lng⟩ ≤ MAX_DIST_KM_SWAP ∧
      (∀ m, minutesUntilClose env.nowMs env.tzOffsetSec p.1.closingTime p.1.closeTs = some m →
        RELAXED_REMAINING_MIN ≤ m) ∧
      (∀ pid, p.1.placeId = some pid → env.swappedIds.contains pid = false)) ∧
    (∀ p ∈ planShortlist env, ∀ pid, p.1.placeId = some pid →
      env.swappedIds.contains pid = false) ∧
    (∀ opt : PlanOption, (relaxedArgs env).allowedSet.contains opt.category = true →
      strContains (lowerStr opt.openStatus) "closed" = false →
      env.dist env.center ⟨opt.lat, opt.lng⟩ ≤ MAX_DIST_KM_SWAP →
      minutesUntilClose env.nowMs env.tzOffsetSec opt.closingTime opt.closeTs = none →
      hardReject env.dist opt (relaxedArgs env) = none) := by
  have hnoswap : ∀ p ∈ dedupedOf env, ∀ pid, p.1.placeId = some pid →
      env.swappedIds.contains pid = false := by
    intro p hded pid hpid
    obtain ⟨c, hc, d, hd, hbuild, hscore⟩ := mem_dedupedOf env p hded
    obtain ⟨hnotfalse, hcat, hcatmem, hrating, hct, hcts, hpidEq, hos⟩ :=
      buildOption_some env.vibe (allowedCategories env) env.center d p.1 hbuild
    have hcfacts := mem_candidatesFiltered env c hc
    have : pid = c.placeId := by
      rw [hpidEq] at hpid
      injection hpid with h
      rw [← h, hdet c.placeId d hd]
    rw [this]
    exact hcfacts.2
  refine ⟨?_, ?_, ?_⟩
  · intro p hp
    obtain ⟨hded, hrej⟩ := mem_planSwapPool env p hp
    rw [Option.isNone_iff_eq_none] at hrej
    obtain ⟨hcontains, hnotclosed, hdist, hunknown, hmin⟩ :=
      hardReject_none env.dist p.1 (relaxedArgs env) hrej
    exact ⟨hdist, hmin, hnoswap p hded⟩
  · intro p hp
    have hstrict := mem_planShortlist_strict env hpick p hp
    rw [strictListOf, List.mem_filter] at hstrict
    exact hnoswap p hstrict.1
  · intro opt hallow hopen hdist hm
    have hmem : opt.category ∈ allowedCategories env := by simpa [relaxedArgs] using hallow
    rw [hardReject_eq_chain]
    simp [hardRejectSpecOrder, relaxedArgs, hmem, hopen, hm, not_lt.2 hdist]

/-- Witness for C3: `envW` (whose swap pool is nonempty, whose details
records echo the queried place id, and whose swapped set is empty). -/
theorem c3_swap_pool_invariants_witness :
    planSwapPool envW ≠ [] ∧
      ∀ p ∈ planSwapPool envW,
        envW.dist envW.center ⟨p.1.lat, p.1.lng⟩ ≤ MAX_DIST_KM_SWAP ∧
        (∀ m, minutesUntilClose envW.nowMs envW.tzOffsetSec p.1.closingTime p.1.closeTs = some m →
          RELAXED_REMAINING_MIN ≤ m) ∧
        (∀ pid, p.1.placeId = some pid → envW.swappedIds.contains pid = false) :=
  ⟨by decide, (c3_swap_pool_invariants envW headPick_valid envW_details_id).1⟩

/-- Bounds of `clamp` when the interval is well formed. -/
theorem clamp_mem (n mn mx : ℚ) (h : mn ≤ mx) :
    mn ≤ clamp n mn mx ∧ clamp n mn mx ≤ mx := by
  unfold clamp jsMax jsMin
  split_ifs <;> constructor <;> linarith

/-- C10: every option reaching the returned shortlist or swap pool has a
non-null rating in `[4.1, 5]`; when the provider reported no rating the
stored value is the default `4.4`; and the scoring engine's nullable-rating
fallback `?? 4.2` always returns the stored value, never the fallback. -/
theorem c10_rating_bounds (env : PlanEnv)
    (hpick : ∀ l x, env.pick l = some x → x ∈ l) :
    ∀ p : Scored, (p ∈ planShortlist env ∨ p ∈ planSwapPool env) →
      ∃ c ∈ candidatesFiltered env, ∃ d : DetailRecord, env.details c.placeId = some d ∧
        buildOptionFromDetail env.vibe (allowedCategories env) env.center d = some p.1 ∧
        ∃ r : ℚ, p.1.rating = some r ∧ 41 / 10 ≤ r ∧ r ≤ 5 ∧
          (d.rating = none → r = 22 / 5) ∧ p.1.rating.getD (21 / 5) = r := by
  intro p hp
  have hded : p ∈ dedupedOf env := by
    rcases hp with hp | hp
    · have hstrict := mem_planShortlist_strict env hpick p hp
      rw [strictListOf, List.mem_filter] at hstrict
      exact hstrict.1
    · exact (mem_planSwapPool env p hp).1
  obtain ⟨c, hc, d, hd, hbuild, hscore⟩ := mem_dedupedOf env p hded
  obtain ⟨hnotfalse, hcat, hcatmem, hrating, hct, hcts, hpidEq, hos⟩ :=
    buildOption_some env.vibe (allowedCategories env) env.center d p.1 hbuild
  refine ⟨c, hc, d, hd, hbuild, clamp (d.rating.getD (22 / 5)) (41 / 10) 5, hrating, ?_, ?_,
    ?_, ?_⟩
  · exact (clamp_mem _ _ _ (by norm_num)).1
  · exact (clamp_mem _ _ _ (by norm_num)).2
  · intro hnone
    rw [hnone]
    norm_num [clamp, jsMax, jsMin, Option.getD]
  · rw [hrating]
    rfl

/-- Witness for C10: `envW` (whose details record has no provider rating)
produces a nonempty shortlist, and the rating invariants hold over both
returned collections. -/
theorem c10_rating_bounds_witness :
    planShortlist envW ≠ [] ∧ recW.rating = none ∧
      ∀ p : Scored, (p ∈ planShortlist envW ∨ p ∈ planSwapPool envW) →
        ∃ c ∈ candidatesFiltered envW, ∃ d : DetailRecord, envW.details c.placeId = some d ∧
          buildOptionFromDetail envW.vibe (allowedCategories envW) envW.center d = some p.1 ∧
          ∃ r : ℚ, p.1.rating = some r ∧ 41 / 10 ≤ r ∧ r ≤ 5 ∧
            (d.rating = none → r = 22 / 5) ∧ p.1.rating.getD (21 / 5) = r :=
  ⟨by decide, rfl, c10_rating_bounds envW headPick_valid⟩

/-! ### Claim C8 (diversity caps) -/

theorem countCat_nil (s : String) : countCat [] s = 0 := rfl

theorem countCat_cons (x : Scored) (l : List Scored) (s : String) :
    countCat (x :: l) s = (if catOf x.1 = s then 1 else 0) + countCat l s := by
  simp only [countCat, List.filter_cons]
  split <;> simp_all [Nat.add_comm]

theorem countCat_append_singleton (l : List Scored) (x : Scored) (s : String) :
    countCat (l ++ [x]) s = countCat l s + (if catOf x.1 = s then 1 else 0) := by
  simp only [countCat, List.filter_append, List.length_append]
  congr 1
  simp only [List.filter_cons, List.filter_nil]
  split <;> simp_all

theorem countCat_take_le (l : List Scored) (n : Nat) (s : String) :
    countCat (l.take n) s ≤ countCat l s :=
  List.Sublist.length_le (List.Sublist.filter _ (List.take_sublist n l))

theorem countCat_diversifyGo (maxPer : Nat) (l : List Scored) :
    ∀ counts : String → Nat, ∀ s,
      countCat (diversifyGo maxPer l counts) s ≤ maxPer - counts s := by
  induction l with
  | nil => intro counts s; simp [diversifyGo, countCat_nil]
  | cons it rest ih =>
    intro counts s
    simp only [diversifyGo]
    split
    · exact ih counts s
    · rename_i hlt
      rw [countCat_cons]
      by_cases hs : catOf it.1 = s
      · subst hs
        have hih := ih (fun x => if x = catOf it.1 then counts (catOf it.1) + 1 else counts x)
          (catOf it.1)
        simp only [eq_self_iff_true, if_true] at hih ⊢
        omega
      · have hih := ih (fun x => if x = catOf it.1 then counts (catOf it.1) + 1 else counts x) s
        have hne : ¬(s = catOf it.1) := fun hcon => hs hcon.symm
        simp only [if_neg hne] at hih
        simp only [if_neg hs]
        omega

theorem selectGo_cap (pick : List Scored → Option Scored)
    (hpick : ∀ l x, pick l = some x → x ∈ l) (fuel : Nat) :
    ∀ picked remaining b, (∀ s, countCat picked s ≤ 2) →
      (selectGo pick fuel picked remaining b).2 = false →
      ∀ s, countCat (selectGo pick fuel picked remaining b).1 s ≤ 2 := by
  induction fuel with
  | zero => intro picked remaining b hcap hflag s; exact hcap s
  | succ fuel ih =>
    intro picked remaining b hcap hflag s
    by_cases hg : picked.length < 5 ∧ remaining ≠ []
    · rcases hpk : pick (if (remaining.filter
            (fun o => countCat picked (catOf o.1) < 2)).isEmpty then remaining
          else remaining.filter (fun o => countCat picked (catOf o.1) < 2))
        with _ | chosen
      · simp only [selectGo, if_pos hg, hpk] at hflag ⊢
        exact hcap s
      · simp only [selectGo, if_pos hg, hpk] at hflag ⊢
        have hb' := selectGo_flag pick fuel _ _ _ hflag
        have hempty : (remaining.filter
            (fun o => countCat picked (catOf o.1) < 2)).isEmpty = false :=
          (Bool.or_eq_false_iff.1 hb').2
        have hchosen : chosen ∈ remaining.filter (fun o => countCat picked (catOf o.1) < 2) := by
          have hmem := hpick _ _ hpk
          rw [if_neg (by simp [hempty])] at hmem
          exact hmem
        have hlt : countCat picked (catOf chosen.1) < 2 := by
          have := (List.mem_filter.1 hchosen).2
          simpa using this
        refine ih _ _ _ ?_ hflag s
        intro t
        rw [countCat_append_singleton]
        by_cases ht : catOf chosen.1 = t
        · rw [if_pos ht, ← ht]
          omega
        · rw [if_neg ht]
          simpa using hcap t
    · simp only [selectGo, if_neg hg] at hflag ⊢
      exact hcap s

theorem postCheck_cap (top30 picked : List Scored)
    (hcap : ∀ s, countCat picked s ≤ 2) (s : String) :
    countCat (postCheck top30 picked) s ≤ 2 := by
  unfold postCheck
  split
  · rename_i hcond
    obtain ⟨hlen, hdedup⟩ := hcond
    exfalso
    obtain ⟨a, ha⟩ := List.length_eq_one.1 hdedup
    have hall : ∀ x ∈ picked, x.1.category = a := by
      intro x hx
      have h1 : x.1.category ∈ picked.map (fun p => p.1.category) :=
        List.mem_map_of_mem _ hx
      have h2 := List.mem_dedup.2 h1
      rw [ha] at h2
      simpa using h2
    have hcount : countCat picked (if a = "" then "Other" else a) = picked.length := by
      unfold countCat
      rw [List.filter_length_eq_length.2]
      intro x hx
      simp [catOf, hall x hx]
    have := hcap (if a = "" then "Other" else a)
    omega
  · exact hcap s

/-- Generic form of the pool caps: the returned pool has at most `maxPer`
options per category and at most `m` options in total. -/
theorem diversify_take_caps (l : List Scored) (maxPer m : Nat) :
    (∀ s, countCat ((diversifyPool l maxPer).take m) s ≤ maxPer) ∧
      ((diversifyPool l maxPer).take m).length ≤ m := by
  constructor
  · intro s
    calc countCat ((diversifyPool l maxPer).take m) s
        ≤ countCat (diversifyPool l maxPer) s := countCat_take_le _ _ _
      _ ≤ maxPer - 0 := countCat_diversifyGo maxPer l _ s
      _ ≤ maxPer := by omega
  · exact List.length_take_le _ _

/-- A concrete details record with the given id and provider types, open
with a far-away close. -/
def recOf (pid : String) (types : List String) : DetailRecord :=
  { placeId := pid, name := pid, rating := some 4, userRatingsTotal := none,
    priceLevel := none, types := types, openNow := some true, businessStatus := none,
    closingTime := some "10:00 PM", closeTs := some 1000036000000,
    formattedAddress := some "addr", lat := some 0, lng := some 0, photoUrls := [] }

/-- The five candidates of the C8 counterexample: one Dessert, one
Bookstore, three Cafes (categories under vibe "Cozy"). -/
def cands8 : List GoogleCandidate :=
  [⟨"p1", "p1", 0, 0⟩, ⟨"p2", "p2", 0, 0⟩, ⟨"p3", "p3", 0, 0⟩,
    ⟨"p4", "p4", 0, 0⟩, ⟨"p5", "p5", 0, 0⟩]

/-- Environment of the C8 counterexample: vibe "Cozy", head picking (one
possible draw of the weighted sampler), five strict-feasible venues of
three distinct categories. -/
def env8 : PlanEnv :=
  { dist := fun _ _ => 0
    lanes := fun v => if v = "Cozy" then cands8 else []
    details := fun p =>
      if p = "p1" then some (recOf "p1" ["bakery"])
      else if p = "p2" then some (recOf "p2" ["book_store"])
      else if p = "p3" then some (recOf "p3" ["cafe"])
      else if p = "p4" then some (recOf "p4" ["cafe"])
      else if p = "p5" then some (recOf "p5" ["cafe"])
      else none
    scoreFn := fun _ => 0
    pick := List.head?
    vibe := "Cozy"
    center := ⟨0, 0⟩
    nowMs := 1000000000000
    tzOffsetSec := 0
    cityHour := 12
    flags := calmFlags
    seenIds := []
    swappedIds := [] }

/-- C8 counterexample: under `env8` the strict-feasible set has 3 distinct
categories, the selector produces a 5-item shortlist, and the category
"Cafe" appears 3 times in it — the 2-per-category cap is exceeded because
once every remaining candidate's category is at the cap the selector falls
back to picking from the full remaining list. -/
theorem c8_diversity_counterexample :
    ((strictListOf env8).map (fun p => p.1.category)).dedup.length = 3 ∧
      (planShortlist env8).length = 5 ∧
      countCat (planShortlist env8) "Cafe" = 3 := by
  decide

/-- C8 amended: the 2-per-category shortlist cap holds on every run in
which the under-cap subset never goes empty (the ghost fallback flag of the
selection loop stays `false`); when the fallback branch fires the cap can
be exceeded even with 3 distinct feasible categories (see the
counterexample).  The pool caps are unconditional: at most 6 options per
category and at most `MAX_POOL_RETURN = 60` options in the returned swap
pool. -/
theorem c8_diversity_amended (env : PlanEnv)
    (hpick : ∀ l x, env.pick l = some x → x ∈ l)
    (hflag : (selectionOf env).2 = false) :
    (∀ s, countCat (planShortlist env) s ≤ 2) ∧
      (∀ s, countCat (planSwapPool env) s ≤ 6) ∧
      (planSwapPool env).length ≤ MAX_POOL_RETURN := by
  refine ⟨?_, ?_, ?_⟩
  · intro s
    have hsel : ∀ t, countCat (selectionOf env).1 t ≤ 2 := by
      intro t
      exact selectGo_cap env.pick hpick 5 [] (top30Of env) false
        (fun u => by simp [countCat_nil]) hflag t
    exact postCheck_cap (top30Of env) (selectionOf env).1 hsel s
  · intro s
    unfold planSwapPool
    exact (diversify_take_caps _ 6 MAX_POOL_RETURN).1 s
  · unfold planSwapPool
    exact (diversify_take_caps _ 6 MAX_POOL_RETURN).2

/-- Witness for C8 (amended): `envW`, whose selection run never fires the
fallback branch. -/
theorem c8_diversity_amended_witness :
    (selectionOf envW).2 = false ∧
      ((∀ s, countCat (planShortlist envW) s ≤ 2) ∧
        (∀ s, countCat (planSwapPool envW) s ≤ 6) ∧
        (planSwapPool envW).length ≤ MAX_POOL_RETURN) :=
  ⟨by decide, c8_diversity_amended envW headPick_valid (by decide)⟩

/-! ### Claim C9 (fallback vibes and early stop) -/

/-- C9 counterexample: under `envW` the primary vibe "Productive" has empty
lanes, yet the returned shortlist consists of the venue found by the first
fallback vibe "Cozy" — fallback lane runs feed the shortlist too, not only
the backup pool. -/
theorem c9_fallback_purity_counterexample :
    envW.vibe = "Productive" ∧ envW.lanes "Productive" = [] ∧
      envW.lanes "Cozy" = [candW] ∧ candW.placeId = "pl1" ∧
      (planShortlist envW).map (fun p => p.1.placeId) = [some "pl1"] := by
  refine ⟨rfl, by decide, by decide, rfl, by decide⟩

/-- C9 amended: the fallback-vibe lane runs enlarge one shared merged
candidate set from which BOTH returned collections are derived: every
shortlist option originates from the lanes of some vibe of the relaxation
list (primary or fallback), not necessarily from the primary vibe's own
lane battery; and the retrieval loop stops early — returning without
visiting the remaining vibes — as soon as the accumulated candidate count
reaches 140. -/
theorem c9_fallback_supply_amended (env : PlanEnv)
    (hpick : ∀ l x, env.pick l = some x → x ∈ l)
    (hdet : ∀ p d, env.details p = some d → d.placeId = p) :
    (∀ p ∈ planShortlist env, ∃ v ∈ fallbackVibesForSwap env.vibe, ∃ c ∈ env.lanes v,
      p.1.placeId = some c.placeId) ∧
      (∀ (lanes : String → List GoogleCandidate) (v : String) (rest : List String)
        (acc : List GoogleCandidate), 140 ≤ (acc ++ lanes v).length →
          gatherLoop lanes (v :: rest) acc = acc ++ lanes v) := by
  constructor
  · intro p hp
    have hstrict := mem_planShortlist_strict env hpick p hp
    rw [strictListOf, List.mem_filter] at hstrict
    obtain ⟨c, hc, d, hd, hbuild, hscore⟩ := mem_dedupedOf env p hstrict.1
    obtain ⟨hv, hnoswap⟩ := mem_candidatesFiltered env c hc
    obtain ⟨v, hvmem, hcl⟩ := hv
    obtain ⟨hnotfalse, hcat, hcatmem, hrating, hct, hcts, hpidEq, hos⟩ :=
      buildOption_some env.vibe (allowedCategories env) env.center d p.1 hbuild
    exact ⟨v, hvmem, c, hcl, by rw [hpidEq, hdet c.placeId d hd]⟩
  · intro lanes v rest acc hlen
    simp only [gatherLoop]
    rw [if_pos hlen]

/-- Witness for C9 (amended): `envW` has a nonempty shortlist whose origin
statement is exercised, and the early stop fires on a 140-candidate lane. -/
theorem c9_fallback_supply_amended_witness :
    planShortlist envW ≠ [] ∧
      (∀ p ∈ planShortlist envW, ∃ v ∈ fallbackVibesForSwap envW.vibe, ∃ c ∈ envW.lanes v,
        p.1.placeId = some c.placeId) :=
  ⟨by decide, (c9_fallback_supply_amended envW headPick_valid envW_details_id).1⟩

/-! ### Claim C4 (cache-read failures) -/

/-- Model of `googleNearbySearch` / `googleTextSearch` around the cache.
Inputs: `cacheRead` is the outcome of `await redisGet(cacheKey)` with the
`JSON.parse`-and-shape check folded in (a malformed or absent payload is
`.ok none`, a thrown read error is `.error ()`); `cacheWrite` is the
outcome of the guarded `redisSetPx` (swallowed by its `try`/`catch`, so it
cannot influence the result); `liveFetch` is the live provider result (the
source returns `[]` itself on provider failure).  The source wraps only the
parse and the write in `try`/`catch`: a thrown cache read propagates out of
the function — the `.error` branch — and in `POST` aborts the request with
status 500. -/
def googleNearbySearchModel (hasRedisCfg allowCache : Bool)
    (cacheRead : Except Unit (Option (List GoogleCandidate)))
    (cacheWrite : Except Unit Unit)
    (liveFetch : List GoogleCandidate) : Except Unit (List GoogleCandidate) :=
  if allowCache && hasRedisCfg then
    match cacheRead with
    | .error e => .error e
    | .ok (some arr) => .ok arr
    | .ok none =>
      match cacheWrite with
      | _ => .ok liveFetch
  else .ok liveFetch

/-- Model of `fetchPlaceDetailsById` around the cache (no `allowCache`
flag in the source; same unguarded read, guarded write). -/
def fetchPlaceDetailsModel (hasRedisCfg : Bool)
    (cacheRead : Except Unit (Option DetailRecord))
    (cacheWrite : Except Unit Unit)
    (liveFetch : Option DetailRecord) : Except Unit (Option DetailRecord) :=
  if hasRedisCfg then
    match cacheRead with
    | .error e => .error e
    | .ok (some d) => .ok (some d)
    | .ok none =>
      match cacheWrite with
      | _ => .ok liveFetch
  else .ok liveFetch

/-- C4: with Redis configured, a thrown cache read makes both functions
return the error — the live provider results (`[candW]`, `some recW`) are
never consulted — contradicting the treat-as-miss requirement; a cache miss
does fall through to the live results no matter how the write ends (writes
are swallowed). -/
theorem c4_cache_read_error_propagates :
    googleNearbySearchModel true true (.error ()) (.ok ()) [candW] = .error () ∧
      fetchPlaceDetailsModel true (.error ()) (.ok ()) (some recW) = .error () ∧
      (∀ w : Except Unit Unit,
        googleNearbySearchModel true true (.ok none) w [candW] = .ok [candW]) ∧
      (∀ w : Except Unit Unit,
        fetchPlaceDetailsModel true (.ok none) w (some recW) = .ok (some recW)) :=
  ⟨rfl, rfl, fun _ => rfl, fun _ => rfl⟩

end PocketPlans
